import Mathlib

/-!
Verification of the mc-dual-proxy PROXY-protocol codec, TCP forwarder write
discipline, session-auth fan-out dispatcher, and HTTP front routing, as a
shallow embedding of the Go sources (proxyproto.go, the forwarder, the
multiauth server).  Byte streams are modelled as lists of naturals (byte
values), a buffered reader as the list of bytes not yet consumed, and each
fallible Go function as an Except-valued Lean function returning the parsed
value together with the remaining stream.
-/

set_option maxRecDepth 10000

/-- Byte list of an ASCII string literal (Go: byte slice of a string). -/
def strB (s : String) : List Nat := s.data.map (fun c => c.toNat)

/-- PROXY protocol v2 12-byte signature (proxyproto.go, proxyV2Sig). -/
def proxyV2Sig : List Nat := [13, 10, 13, 10, 0, 13, 10, 81, 85, 73, 84, 10]

/-- ASCII prefix for PROXY protocol v1 (proxyproto.go, proxyV1Prefix). -/
def proxyV1Prefix : List Nat := strB "PROXY "

/-- Parsed PROXY protocol header (proxyproto.go, ProxyHeader).  Go nil
slices are modelled as none; the defaults mirror Go zero values. -/
structure ProxyHeader where
  version : Nat
  srcAddr : Option (List Nat) := none
  dstAddr : Option (List Nat) := none
  srcPort : Nat := 0
  dstPort : Nat := 0
  rawBytes : List Nat
deriving DecidableEq, Repr

/-- Models bufio.Reader.ReadBytes given the LF delimiter byte 10: consume
up to and including the first 10; none when the stream has no 10 (Go
returns an error at EOF before the delimiter). -/
def readBytesLF : List Nat → Option (List Nat × List Nat)
  | [] => none
  | b :: rest =>
    if b = 10 then some ([10], rest)
    else
      match readBytesLF rest with
      | none => none
      | some (line, r) => some (b :: line, r)

/-- Models strings.TrimRight with the cutset CR LF: drop all trailing bytes
that are 13 or 10. -/
def trimRightCRLF (l : List Nat) : List Nat :=
  (l.reverse.dropWhile (fun b => b == 13 || b == 10)).reverse

/-- Models strings.Split on a single space: split at every byte 32. -/
def splitOnSpace : List Nat → List (List Nat)
  | [] => [[]]
  | b :: rest =>
    if b = 32 then [] :: splitOnSpace rest
    else
      match splitOnSpace rest with
      | t :: ts => (b :: t) :: ts
      | [] => [[b]]

/-- Inverse of splitOnSpace used to state well-formedness: interleave the
tokens with single spaces. -/
def joinSpace : List (List Nat) → List Nat
  | [] => []
  | [p] => p
  | p :: q :: ps => p ++ 32 :: joinSpace (q :: ps)

/-- Models one dotted-quad field for parseIP: decimal, value at most 255,
at most 3 digits, no extra leading zero. -/
def ipv4Field (f : List Nat) : Option Nat :=
  if f.isEmpty then none
  else if ¬ f.all (fun b => decide (48 ≤ b ∧ b ≤ 57)) then none
  else if 1 < f.length ∧ f.headD 0 = 48 then none
  else if 3 < f.length then none
  else
    let v := f.foldl (fun a b => a * 10 + (b - 48)) 0
    if v ≤ 255 then some v else none

/-- Models the standard library net.ParseIP, restricted to IPv4 dotted-quad
literals; every other string yields none (Go: a nil IP).  No claim in this
development depends on the value produced here: the v1 parser stores it but
never branches on it. -/
def parseIP (tok : List Nat) : Option (List Nat) :=
  match (tok.splitOn 46).mapM ipv4Field with
  | some [a, b, c, d] => some [a, b, c, d]
  | _ => none

/-- Value of the longest leading run of decimal digits; none when there is
no leading digit. -/
def digitsVal (l : List Nat) : Option Nat :=
  let ds := l.takeWhile (fun b => decide (48 ≤ b ∧ b ≤ 57))
  if ds.isEmpty then none
  else some (ds.foldl (fun a b => a * 10 + (b - 48)) 0)

/-- Models fmt.Sscanf with a single %d verb into a 64-bit int.  Every verb
except %c first discards leading space characters: the scanner skips tab,
vertical tab, form feed, carriage return and space (a carriage return
followed by a newline is consumed and the newline is then seen), while a
newline in Scanf mode is an error that aborts the scan before assignment.
After the skip, an optional sign followed by decimal digits is scanned;
none when no integer can be extracted or the value overflows a signed
64-bit integer (Go then leaves the target variable untouched, i.e. zero). -/
def scanInt (tok : List Nat) : Option Int :=
  match tok.dropWhile (fun b => b == 9 || b == 11 || b == 12 || b == 13 || b == 32) with
  | 10 :: _ => none
  | 45 :: rest =>
    (digitsVal rest).bind fun n =>
      if n ≤ 9223372036854775808 then some (-(n : Int)) else none
  | 43 :: rest =>
    (digitsVal rest).bind fun n =>
      if n ≤ 9223372036854775807 then some (n : Int) else none
  | rest =>
    (digitsVal rest).bind fun n =>
      if n ≤ 9223372036854775807 then some (n : Int) else none

/-- Parses a PROXY protocol v1 header (proxyproto.go, parseProxyV1).  The
ports embed fmt.Sscanf into an int followed by Go uint16 truncation. -/
def parseProxyV1 (s : List Nat) : Except String (Option ProxyHeader × List Nat) :=
  match readBytesLF s with
  | none => Except.error "proxy v1: failed to read header line"
  | some (line, rest) =>
    if line.length < 2 ∨ line.getD (line.length - 2) 0 ≠ 13 then
      Except.error "proxy v1: header does not end with CRLF"
    else
      let str := trimRightCRLF line
      let parts := splitOnSpace str
      if parts.length = 2 ∧ parts.getD 1 [] = strB "UNKNOWN" then
        Except.ok (some { version := 1, rawBytes := line }, rest)
      else if parts.length ≠ 6 then
        Except.error "proxy v1: expected 6 fields"
      else
        Except.ok (some { version := 1,
                          srcAddr := parseIP (parts.getD 2 []),
                          dstAddr := parseIP (parts.getD 3 []),
                          srcPort := (((scanInt (parts.getD 4 [])).getD 0) % 65536).toNat,
                          dstPort := (((scanInt (parts.getD 5 [])).getD 0) % 65536).toNat,
                          rawBytes := line }, rest)

/-- Models binary.BigEndian.Uint16 on the first two bytes of a slice. -/
def be16dec : List Nat → Nat
  | a :: b :: _ => a * 256 + b
  | _ => 0

/-- Address fields extracted from a v2 address block for a given address
family nibble (proxyproto.go, the switch in parseProxyV2). -/
def v2AddrFields (fam : Nat) (blk : List Nat) :
    Option (List Nat) × Option (List Nat) × Nat × Nat :=
  if fam = 1 then
    if 12 ≤ blk.length then
      (some (blk.take 4), some ((blk.drop 4).take 4),
        be16dec (blk.drop 8), be16dec (blk.drop 10))
    else (none, none, 0, 0)
  else if fam = 2 then
    if 36 ≤ blk.length then
      (some (blk.take 16), some ((blk.drop 16).take 16),
        be16dec (blk.drop 32), be16dec (blk.drop 34))
    else (none, none, 0, 0)
  else (none, none, 0, 0)

/-- Parses a PROXY protocol v2 header (proxyproto.go, parseProxyV2): read
the fixed 16 bytes, check the version nibble, read the declared address
block, and record the exact consumed bytes as rawBytes. -/
def parseProxyV2 (s : List Nat) : Except String (Option ProxyHeader × List Nat) :=
  if 16 ≤ s.length then
    let fixedHeader := s.take 16
    if fixedHeader.getD 12 0 / 16 = 2 then
      let addrFamily := fixedHeader.getD 13 0 / 16
      let addrLen := be16dec (fixedHeader.drop 14)
      if addrLen ≤ (s.drop 16).length then
        let addrBlock := (s.drop 16).take addrLen
        match v2AddrFields addrFamily addrBlock with
        | (sa, da, sp, dp) =>
          Except.ok (some { version := 2, srcAddr := sa, dstAddr := da,
                            srcPort := sp, dstPort := dp,
                            rawBytes := fixedHeader ++ addrBlock },
            (s.drop 16).drop addrLen)
      else Except.error "proxy v2: failed to read address block"
    else Except.error "proxy v2: unexpected version"
  else Except.error "proxy v2: failed to read fixed header"

/-- Detects a PROXY protocol header on a buffered stream (proxyproto.go,
detectProxyProtocol).  Peeking 16 bytes (falling back to 6) never consumes;
the first 12 peeked bytes are the first 12 stream bytes, likewise for 6. -/
def detectProxyProtocol (s : List Nat) : Except String (Option ProxyHeader × List Nat) :=
  if 16 ≤ s.length then
    if s.take 12 = proxyV2Sig then parseProxyV2 s
    else if s.take 6 = proxyV1Prefix then parseProxyV1 s
    else Except.ok (none, s)
  else if 6 ≤ s.length then
    if s.take 6 = proxyV1Prefix then parseProxyV1 s
    else Except.ok (none, s)
  else Except.ok (none, s)

/-- Prefix that marks an IPv4 address embedded in a 16-byte IP
(net, v4InV6Prefix). -/
def v4MappedPrefix : List Nat := [0, 0, 0, 0, 0, 0, 0, 0, 0, 0, 255, 255]

/-- Models net.IP.To4: the 4-byte form of an IPv4 address, none for
anything else. -/
def ipTo4 (ip : List Nat) : Option (List Nat) :=
  if ip.length = 4 then some ip
  else if ip.length = 16 ∧ ip.take 12 = v4MappedPrefix then some (ip.drop 12)
  else none

/-- Models net.IP.To16: the canonical 16-byte form, none for a slice that
is neither 4 nor 16 bytes (Go: nil). -/
def ipTo16 (ip : List Nat) : Option (List Nat) :=
  if ip.length = 4 then some (v4MappedPrefix ++ ip)
  else if ip.length = 16 then some ip
  else none

/-- Models Go copy of src into an n-byte zeroed region: the copied prefix
followed by the untouched zero bytes. -/
def copyN (n : Nat) (src : List Nat) : List Nat :=
  src.take n ++ List.replicate (n - src.length) 0

/-- Models binary.BigEndian.PutUint16 into a 2-byte region. -/
def be16 (n : Nat) : List Nat := [n / 256 % 256, n % 256]

/-- Models net.Addr as consumed by buildProxyV2Header: either a TCP address
(net.TCPAddr, whose Port is a Go int) or some other address type for which
the type assertion fails. -/
inductive GoAddr where
  | tcp (ip : List Nat) (port : Int)
  | other
deriving DecidableEq

/-- Builds a synthetic PROXY v2 header from the connection addresses
(proxyproto.go, buildProxyV2Header).  Ports go through Go uint16
truncation; 33 is 0x21, 17 is 0x11, 32 is 0x20. -/
def buildProxyV2Header (srcAddr dstAddr : GoAddr) : List Nat :=
  match srcAddr, dstAddr with
  | GoAddr.tcp sip sport, GoAddr.tcp dip dport =>
    match ipTo4 sip, ipTo4 dip with
    | some s4, some d4 =>
      proxyV2Sig ++ [33, 17] ++ be16 12 ++
        copyN 4 s4 ++ copyN 4 d4 ++
        be16 (sport % 65536).toNat ++ be16 (dport % 65536).toNat
    | _, _ =>
      proxyV2Sig ++ [33, 33] ++ be16 36 ++
        copyN 16 ((ipTo16 sip).getD []) ++ copyN 16 ((ipTo16 dip).getD []) ++
        be16 (sport % 65536).toNat ++ be16 (dport % 65536).toNat
  | _, _ => proxyV2Sig ++ [32, 0] ++ be16 0

/-- Byte trace written to the backend by handleConnection once past the
dial: none when detection fails (the handler returns before writing);
otherwise exactly one PROXY header, the detected header's raw bytes or a
synthesized v2 header from the remote and local addresses, followed by the
remaining client stream copied through the buffered reader. -/
def backendBytes (clientStream : List Nat) (remoteAddr localAddr : GoAddr) :
    Option (List Nat) :=
  match detectProxyProtocol clientStream with
  | Except.error _ => none
  | Except.ok (some h, rest) => some (h.rawBytes ++ rest)
  | Except.ok (none, rest) => some (buildProxyV2Header remoteAddr localAddr ++ rest)

/-- Response from one upstream session server (multiauth, authResult).
The err flag models a non-nil Err field; Go zero values fill the rest. -/
structure AuthResult where
  statusCode : Nat := 0
  body : List Nat := []
  server : String := ""
  err : Bool := false
deriving DecidableEq, Repr

/-- One arrival at the dispatcher select: a result from the channel, or
the context deadline firing. -/
inductive AuthEvent where
  | result (r : AuthResult)
  | ctxDone
deriving DecidableEq, Repr

/-- Observable HTTP response written by the multiauth handler. -/
structure HttpResponse where
  status : Nat
  contentType : Option String := none
  body : List Nat := []
deriving DecidableEq, Repr

/-- Response for no winning upstream: 204 No Content, no body. -/
def resp204 : HttpResponse := { status := 204 }

/-- Response for a winning upstream body (handleHasJoined success path). -/
def respWin (body : List Nat) : HttpResponse :=
  { status := 200, contentType := some "application/json", body := body }

/-- Response of http.Error for an empty query string. -/
def resp400 : HttpResponse :=
  { status := 400, contentType := some "text/plain; charset=utf-8",
    body := strB "missing query parameters\n" }

/-- Dispatcher loop of handleHasJoined over the arrival order of select
events, with remaining initialized to the number of servers.  Returns the
response together with the number of events consumed; none models the
select blocking forever because no further event arrives. -/
def dispatchLoop : Nat → List AuthEvent → Option (HttpResponse × Nat)
  | 0, _ => some (resp204, 0)
  | Nat.succ _, [] => none
  | Nat.succ _, AuthEvent.ctxDone :: _ => some (resp204, 1)
  | Nat.succ remaining, AuthEvent.result r :: rest =>
    if r.err then
      (dispatchLoop remaining rest).map (fun p => (p.1, p.2 + 1))
    else if r.statusCode = 200 ∧ r.body ≠ [] then
      some (respWin r.body, 1)
    else
      (dispatchLoop remaining rest).map (fun p => (p.1, p.2 + 1))

/-- Models handleHasJoined: reject an empty raw query with 400, otherwise
run the dispatcher with remaining = number of configured servers over the
given event arrival order. -/
def handleHasJoined (rawQuery : String) (servers : List String)
    (events : List AuthEvent) : Option (HttpResponse × Nat) :=
  if rawQuery = "" then some (resp400, 0)
  else dispatchLoop servers.length events

/-- Winning condition of the dispatcher: no error, status 200, non-empty
body (handleHasJoined, the success branch). -/
def winsAuth (r : AuthResult) : Prop :=
  r.err = false ∧ r.statusCode = 200 ∧ r.body ≠ []

instance (r : AuthResult) : Decidable (winsAuth r) := by
  unfold winsAuth; infer_instance

/-- Number of result events in an arrival order (each launched probe sends
exactly one result). -/
def countResults (events : List AuthEvent) : Nat :=
  (events.filter fun e => match e with
    | AuthEvent.result _ => true
    | AuthEvent.ctxDone => false).length

/-- Upstream probe URL built by querySessionServer: trailing slashes
trimmed, then the hasJoined path and the raw query. -/
def probeURL (serverBase rawQuery : String) : String :=
  String.mk ((serverBase.data.reverse.dropWhile (fun c => c == '/')).reverse)
    ++ "/session/minecraft/hasJoined?" ++ rawQuery

/-- Probes launched by the fan-out: one per configured server. -/
def launchedProbes (servers : List String) (rawQuery : String) : List String :=
  servers.map (fun s => probeURL s rawQuery)

/-- Outcome selected by the multiauth HTTP mux for a request. -/
inductive RouteOutcome where
  | hasJoinedHandler
  | healthOk
  | notFound
deriving DecidableEq, Repr

/-- Models strings.Contains on character lists. -/
def containsSub (pat : List Char) : List Char → Bool
  | [] => pat.isEmpty
  | c :: t => pat.isPrefixOf (c :: t) || containsSub pat t

/-- Routing of the multiauth HTTP front (startMultiauth): the ServeMux
patterns are the exact hasJoined path, the exact health path, and a
catch-all that retries the hasJoined handler when the path contains the
substring hasJoined.  No pattern constrains the method, so the method
parameter is never consulted. -/
def routeRequest (method : String) (path : String) : RouteOutcome :=
  if path = "/session/minecraft/hasJoined" then RouteOutcome.hasJoinedHandler
  else if path = "/health" then RouteOutcome.healthOk
  else if containsSub ("hasJoined".data) path.data then RouteOutcome.hasJoinedHandler
  else RouteOutcome.notFound

/-- Well-formed PROXY v1 header: space-joined tokens free of LF, CR and
space bytes, terminated by CR LF, of one of the two accepted shapes. -/
def wfV1 (H : List Nat) : Prop :=
  ∃ parts : List (List Nat),
    H = joinSpace parts ++ [13, 10] ∧
    (∀ p ∈ parts, ∀ b ∈ p, b ≠ 10 ∧ b ≠ 13 ∧ b ≠ 32) ∧
    (parts = [strB "PROXY", strB "UNKNOWN"] ∨
      ∃ t a1 a2 q1 q2, (t = strB "TCP4" ∨ t = strB "TCP6") ∧
        parts = [strB "PROXY", t, a1, a2, q1, q2])

/-- Well-formed PROXY v2 header: the signature, a descriptor whose version
nibble is 2, the big-endian length of the address block, and the block
itself (trailing TLV bytes included). -/
def wfV2 (H : List Nat) : Prop :=
  ∃ vc fam blk, H = proxyV2Sig ++ [vc, fam] ++ be16 blk.length ++ blk ∧
    vc / 16 = 2 ∧ blk.length < 65536

/-- Valid IP slice inside a net.TCPAddr: 4 or 16 bytes. -/
def validIP (ip : List Nat) : Prop := ip.length = 4 ∨ ip.length = 16

/-- Models net.IP.Equal: the same bytes, or the same address up to the
IPv4-in-IPv6 embedding. -/
def ipEqual (a b : List Nat) : Prop :=
  a = b ∨ ∃ x, ipTo16 a = some x ∧ ipTo16 b = some x

/-! ### Helper lemmas about the reader and tokenizer -/

theorem readBytesLF_eq_append {s line rest : List Nat}
    (h : readBytesLF s = some (line, rest)) : s = line ++ rest := by
  induction s generalizing line rest with
  | nil => simp [readBytesLF] at h
  | cons b t ih =>
    by_cases hb : b = 10
    · subst hb
      simp [readBytesLF] at h
      obtain ⟨h1, h2⟩ := h
      subst h1; subst h2; rfl
    · rw [readBytesLF, if_neg hb] at h
      cases hr : readBytesLF t with
      | none => rw [hr] at h; exact absurd h (by simp)
      | some p =>
        obtain ⟨l2, r2⟩ := p
        rw [hr] at h
        simp at h
        obtain ⟨h1, h2⟩ := h
        subst h1; subst h2
        simpa using congrArg (b :: ·) (ih hr)

theorem readBytesLF_append {l : List Nat} (r : List Nat)
    (hl : ∀ b ∈ l, b ≠ 10) :
    readBytesLF (l ++ 10 :: r) = some (l ++ [10], r) := by
  induction l with
  | nil => simp [readBytesLF]
  | cons b t ih =>
    have hb : b ≠ 10 := hl b (by simp)
    rw [List.cons_append, readBytesLF, if_neg hb,
      ih (fun x hx => hl x (by simp [hx]))]
    rfl

theorem getD_append_pair (l : List Nat) (a b : Nat) :
    (l ++ [a, b]).getD l.length 0 = a := by
  induction l with
  | nil => rfl
  | cons c t ih => simpa using ih

theorem dropWhile_eq_self_of {p : Nat → Bool} {l : List Nat}
    (h : ∀ b ∈ l, p b = false) : l.dropWhile p = l := by
  cases l with
  | nil => rfl
  | cons b t => rw [List.dropWhile_cons, h b (by simp)]; simp

theorem trimRightCRLF_append {core : List Nat}
    (h : ∀ b ∈ core, b ≠ 13 ∧ b ≠ 10) :
    trimRightCRLF (core ++ [13, 10]) = core := by
  unfold trimRightCRLF
  rw [List.reverse_append]
  show ((([10, 13] : List Nat) ++ core.reverse).dropWhile _).reverse = core
  rw [List.cons_append, List.dropWhile_cons]
  norm_num
  rw [dropWhile_eq_self_of, List.reverse_reverse]
  intro b hb
  have := h b (by simpa using hb)
  simp [this.1, this.2]

theorem splitOnSpace_ne_nil (l : List Nat) : splitOnSpace l ≠ [] := by
  induction l with
  | nil => simp [splitOnSpace]
  | cons b t ih =>
    rw [splitOnSpace]
    split
    · simp
    · cases hr : splitOnSpace t with
      | nil => exact absurd hr ih
      | cons x xs => simp

theorem splitOnSpace_no_space {p : List Nat} (hp : ∀ b ∈ p, b ≠ 32) :
    splitOnSpace p = [p] := by
  induction p with
  | nil => rfl
  | cons b t ih =>
    rw [splitOnSpace, if_neg (hp b (by simp)),
      ih (fun x hx => hp x (by simp [hx]))]

theorem splitOnSpace_append {p : List Nat} (r : List Nat)
    (hp : ∀ b ∈ p, b ≠ 32) :
    splitOnSpace (p ++ 32 :: r) = p :: splitOnSpace r := by
  induction p with
  | nil => rw [List.nil_append, splitOnSpace, if_pos rfl]
  | cons b t ih =>
    rw [List.cons_append, splitOnSpace, if_neg (hp b (by simp)),
      ih (fun x hx => hp x (by simp [hx]))]

theorem splitOnSpace_joinSpace {parts : List (List Nat)}
    (hne : parts ≠ []) (htok : ∀ p ∈ parts, ∀ b ∈ p, b ≠ 32) :
    splitOnSpace (joinSpace parts) = parts := by
  induction parts with
  | nil => exact absurd rfl hne
  | cons p ps ih =>
    cases ps with
    | nil =>
      rw [joinSpace, splitOnSpace_no_space (htok p (by simp))]
    | cons q qs =>
      rw [joinSpace, splitOnSpace_append _ (htok p (by simp)),
        ih (by simp) (fun x hx => htok x (by simp [hx]))]

theorem mem_joinSpace {b : Nat} {parts : List (List Nat)}
    (hb : b ∈ joinSpace parts) : (∃ p ∈ parts, b ∈ p) ∨ b = 32 := by
  induction parts with
  | nil => simp [joinSpace] at hb
  | cons p ps ih =>
    cases ps with
    | nil =>
      rw [joinSpace] at hb
      exact Or.inl ⟨p, by simp, hb⟩
    | cons q qs =>
      rw [joinSpace] at hb
      rcases List.mem_append.1 hb with h | h
      · exact Or.inl ⟨p, by simp, h⟩
      · rcases List.mem_cons.1 h with h | h
        · exact Or.inr h
        · rcases ih h with ⟨x, hx, hbx⟩ | h
          · exact Or.inl ⟨x, by simp [hx], hbx⟩
          · exact Or.inr h

theorem parseProxyV1_canonical (parts : List (List Nat)) (B : List Nat)
    (htok : ∀ p ∈ parts, ∀ b ∈ p, b ≠ 10 ∧ b ≠ 13 ∧ b ≠ 32)
    (hne : parts ≠ []) :
    parseProxyV1 (joinSpace parts ++ [13, 10] ++ B) =
      if parts.length = 2 ∧ parts.getD 1 [] = strB "UNKNOWN" then
        Except.ok (some { version := 1, rawBytes := joinSpace parts ++ [13, 10] }, B)
      else if parts.length ≠ 6 then
        Except.error "proxy v1: expected 6 fields"
      else
        Except.ok (some { version := 1,
                          srcAddr := parseIP (parts.getD 2 []),
                          dstAddr := parseIP (parts.getD 3 []),
                          srcPort := (((scanInt (parts.getD 4 [])).getD 0) % 65536).toNat,
                          dstPort := (((scanInt (parts.getD 5 [])).getD 0) % 65536).toNat,
                          rawBytes := joinSpace parts ++ [13, 10] }, B) := by
  have hcore : ∀ b ∈ joinSpace parts, b ≠ 13 ∧ b ≠ 10 := by
    intro b hb
    rcases mem_joinSpace hb with ⟨p, hp, hbp⟩ | h
    · exact ⟨(htok p hp b hbp).2.1, (htok p hp b hbp).1⟩
    · subst h; exact ⟨by norm_num, by norm_num⟩
  have hno10 : ∀ b ∈ joinSpace parts ++ [13], b ≠ 10 := by
    intro b hb
    rcases List.mem_append.1 hb with h | h
    · exact (hcore b h).2
    · simp at h; subst h; norm_num
  have h32 : ∀ p ∈ parts, ∀ b ∈ p, b ≠ 32 :=
    fun p hp b hb => (htok p hp b hb).2.2
  unfold parseProxyV1
  rw [show joinSpace parts ++ [13, 10] ++ B = (joinSpace parts ++ [13]) ++ 10 :: B from by simp,
    readBytesLF_append B hno10]
  rw [show ((joinSpace parts ++ [13]) ++ [10]) = joinSpace parts ++ [13, 10] from by simp]
  dsimp only
  have hcrlf : ¬ ((joinSpace parts ++ [13, 10]).length < 2 ∨
      (joinSpace parts ++ [13, 10]).getD ((joinSpace parts ++ [13, 10]).length - 2) 0 ≠ 13) := by
    push_neg
    constructor
    · simp
    · have : (joinSpace parts ++ [13, 10]).length - 2 = (joinSpace parts).length := by
        simp
      rw [this, getD_append_pair]
  rw [if_neg hcrlf]
  simp only [trimRightCRLF_append hcore, splitOnSpace_joinSpace hne h32]

/-! ### Consumption lemmas: a parsed header's raw bytes are exactly the consumed bytes -/

theorem parseProxyV1_consumes {s : List Nat} {o : Option ProxyHeader} {rest : List Nat}
    (h : parseProxyV1 s = Except.ok (o, rest)) :
    ∃ hd, o = some hd ∧ s = hd.rawBytes ++ rest := by
  unfold parseProxyV1 at h
  cases hr : readBytesLF s with
  | none => rw [hr] at h; exact absurd h (by simp)
  | some p =>
    obtain ⟨line, r⟩ := p
    rw [hr] at h
    dsimp only at h
    split at h
    · exact absurd h (by simp)
    · split at h
      · simp at h
        exact ⟨_, h.1.symm, by rw [← h.2]; simpa using readBytesLF_eq_append hr⟩
      · split at h
        · exact absurd h (by simp)
        · simp at h
          exact ⟨_, h.1.symm, by rw [← h.2]; simpa using readBytesLF_eq_append hr⟩

theorem parseProxyV2_consumes {s : List Nat} {o : Option ProxyHeader} {rest : List Nat}
    (h : parseProxyV2 s = Except.ok (o, rest)) :
    ∃ hd, o = some hd ∧ s = hd.rawBytes ++ rest := by
  unfold parseProxyV2 at h
  dsimp only at h
  split at h
  · split at h
    · split at h
      · rcases hv : v2AddrFields ((s.take 16).getD 13 0 / 16)
            ((s.drop 16).take (be16dec ((s.take 16).drop 14))) with ⟨sa, da, sp, dp⟩
        rw [hv] at h
        simp at h
        refine ⟨_, h.1.symm, ?_⟩
        have h2 : List.drop (16 + be16dec (List.drop 14 (List.take 16 s))) s
            = List.drop (be16dec (List.drop 14 (List.take 16 s))) (List.drop 16 s) := by
          rw [List.drop_drop, Nat.add_comm]
        rw [← h.2, h2]
        dsimp only
        rw [List.append_assoc, List.take_append_drop, List.take_append_drop]
      · exact absurd h (by simp)
    · exact absurd h (by simp)
  · exact absurd h (by simp)

theorem detect_some_consumes {s : List Nat} {hd : ProxyHeader} {rest : List Nat}
    (h : detectProxyProtocol s = Except.ok (some hd, rest)) :
    s = hd.rawBytes ++ rest := by
  unfold detectProxyProtocol at h
  split at h
  · split at h
    · obtain ⟨hd2, he, hs⟩ := parseProxyV2_consumes h
      obtain rfl : hd2 = hd := by simpa using he.symm
      exact hs
    · split at h
      · obtain ⟨hd2, he, hs⟩ := parseProxyV1_consumes h
        obtain rfl : hd2 = hd := by simpa using he.symm
        exact hs
      · exact absurd h (by simp)
  · split at h
    · split at h
      · obtain ⟨hd2, he, hs⟩ := parseProxyV1_consumes h
        obtain rfl : hd2 = hd := by simpa using he.symm
        exact hs
      · exact absurd h (by simp)
    · exact absurd h (by simp)

theorem detect_none_rest {s rest : List Nat}
    (h : detectProxyProtocol s = Except.ok (none, rest)) : rest = s := by
  unfold detectProxyProtocol at h
  split at h
  · split at h
    · obtain ⟨hd2, he, hs⟩ := parseProxyV2_consumes h
      exact absurd he.symm (by simp)
    · split at h
      · obtain ⟨hd2, he, hs⟩ := parseProxyV1_consumes h
        exact absurd he.symm (by simp)
      · simpa using h.symm
  · split at h
    · split at h
      · obtain ⟨hd2, he, hs⟩ := parseProxyV1_consumes h
        exact absurd he.symm (by simp)
      · simpa using h.symm
    · simpa using h.symm

/-! ### Dispatcher lemmas -/

theorem dispatchLoop_first_winner (suf : List AuthEvent) (w : AuthResult) (hw : winsAuth w) :
    ∀ (pre : List AuthEvent) (n : Nat),
      (∀ e ∈ pre, ∃ r, e = AuthEvent.result r ∧ ¬ winsAuth r) →
      pre.length < n →
      dispatchLoop n (pre ++ AuthEvent.result w :: suf)
        = some (respWin w.body, pre.length + 1) := by
  intro pre
  induction pre with
  | nil =>
    intro n _ hn
    obtain ⟨m, rfl⟩ := Nat.exists_eq_succ_of_ne_zero (Nat.pos_iff_ne_zero.1 hn)
    simp [dispatchLoop, hw.1, hw.2.1, hw.2.2]
  | cons e pre ih =>
    intro n hpre hn
    obtain ⟨r, rfl, hnw⟩ := hpre e (by simp)
    obtain ⟨m, rfl⟩ := Nat.exists_eq_succ_of_ne_zero
      (Nat.pos_iff_ne_zero.1 (Nat.lt_of_le_of_lt (Nat.zero_le _) hn))
    have hrec := ih m (fun x hx => hpre x (by simp [hx])) (Nat.lt_of_succ_lt_succ hn)
    by_cases herr : r.err
    · simp [dispatchLoop, herr, hrec]
    · have hnotwin : ¬ (r.statusCode = 200 ∧ r.body ≠ []) := by
        intro hc
        exact hnw ⟨by simpa using herr, hc.1, hc.2⟩
      simp [dispatchLoop, herr, hnotwin, hrec]

theorem dispatchLoop_no_winner :
    ∀ (events : List AuthEvent) (n : Nat),
      (∀ r, AuthEvent.result r ∈ events → ¬ winsAuth r) →
      (AuthEvent.ctxDone ∈ events ∨ n ≤ countResults events) →
      ∃ k, dispatchLoop n events = some (resp204, k) := by
  intro events
  induction events with
  | nil =>
    intro n _ hterm
    have hn : n = 0 := by
      rcases hterm with h | h
      · simp at h
      · simpa [countResults] using h
    exact ⟨0, by simp [hn, dispatchLoop]⟩
  | cons e rest ih =>
    intro n hfail hterm
    cases n with
    | zero => exact ⟨0, rfl⟩
    | succ m =>
      cases e with
      | ctxDone => exact ⟨1, rfl⟩
      | result r =>
        have hnw : ¬ winsAuth r := hfail r (by simp)
        have hterm2 : AuthEvent.ctxDone ∈ rest ∨ m ≤ countResults rest := by
          rcases hterm with h | h
          · left; simpa using h
          · right
            have : countResults (AuthEvent.result r :: rest) = countResults rest + 1 := by
              simp [countResults]
            omega
        obtain ⟨k, hk⟩ := ih m (fun x hx => hfail x (by simp [hx])) hterm2
        by_cases herr : r.err
        · exact ⟨k + 1, by simp [dispatchLoop, herr, hk]⟩
        · have hnotwin : ¬ (r.statusCode = 200 ∧ r.body ≠ []) := by
            intro hc
            exact hnw ⟨by simpa using herr, hc.1, hc.2⟩
          exact ⟨k + 1, by simp [dispatchLoop, herr, hnotwin, hk]⟩

/-- Claim C1: with a non-empty query, the first arriving result with status 200
and a non-empty body wins: the response has status 200, Content-Type
application/json, a body byte-for-byte equal to that winner's body, and
the dispatcher consumes no event beyond the winner. -/
theorem mcdp_fanout_first_winner (rawQuery : String) (servers : List String)
    (pre suf : List AuthEvent) (w : AuthResult)
    (hq : rawQuery ≠ "")
    (hpre : ∀ e ∈ pre, ∃ r, e = AuthEvent.result r ∧ ¬ winsAuth r)
    (hw : winsAuth w)
    (hlen : pre.length < servers.length) :
    handleHasJoined rawQuery servers (pre ++ AuthEvent.result w :: suf)
      = some ({ status := 200, contentType := some "application/json",
                body := w.body }, pre.length + 1) := by
  unfold handleHasJoined
  rw [if_neg hq]
  simpa [respWin] using dispatchLoop_first_winner suf w hw pre servers.length hpre hlen

theorem mcdp_fanout_first_winner_witness :
    handleHasJoined "username=TestPlayer&serverId=abc123" ["mojang", "minehut"]
        [AuthEvent.result { statusCode := 404, server := "mojang" },
         AuthEvent.result { statusCode := 200, body := strB "{}", server := "minehut" }]
      = some ({ status := 200, contentType := some "application/json",
                body := strB "{}" }, 2) := by
  have h := mcdp_fanout_first_winner "username=TestPlayer&serverId=abc123"
    ["mojang", "minehut"]
    [AuthEvent.result { statusCode := 404, server := "mojang" }] []
    { statusCode := 200, body := strB "{}", server := "minehut" }
    (by decide)
    (by
      intro e he
      simp at he
      subst he
      exact ⟨_, rfl, by decide⟩)
    (by decide)
    (by decide)
  simpa using h

/-- Claim C2: with a non-empty query, if every result arriving at the dispatcher
fails to win (error, non-200 status, or 200 with an empty body) and the
run terminates (the deadline fires, or every launched probe has reported),
the response is 204 No Content with an empty body, the same response
whatever the mix and order of failures. -/
theorem mcdp_fanout_no_winner (rawQuery : String) (servers : List String)
    (events : List AuthEvent)
    (hq : rawQuery ≠ "")
    (hfail : ∀ r, AuthEvent.result r ∈ events → ¬ winsAuth r)
    (hterm : AuthEvent.ctxDone ∈ events ∨ servers.length ≤ countResults events) :
    ∃ k, handleHasJoined rawQuery servers events
      = some ({ status := 204, contentType := none, body := [] }, k) := by
  unfold handleHasJoined
  rw [if_neg hq]
  simpa [resp204] using dispatchLoop_no_winner events servers.length hfail hterm

theorem mcdp_fanout_no_winner_witness :
    ∃ k, handleHasJoined "username=TestPlayer&serverId=abc123" ["mojang", "minehut"]
        [AuthEvent.result { statusCode := 204, server := "mojang" },
         AuthEvent.result { err := true, server := "minehut" }]
      = some ({ status := 204, contentType := none, body := [] }, k) := by
  refine mcdp_fanout_no_winner _ _ _ (by decide) ?_ ?_
  · intro r hr
    simp at hr
    rcases hr with h | h <;> subst h <;> decide
  · right
    simp [countResults]

/-- Claim C10: with an empty upstream server list and a non-empty query, the
handler responds 204 No Content immediately: no probe is launched and not
a single select event, the deadline included, is consumed. -/
theorem mcdp_fanout_empty_servers (rawQuery : String) (events : List AuthEvent)
    (hq : rawQuery ≠ "") :
    handleHasJoined rawQuery [] events
        = some ({ status := 204, contentType := none, body := [] }, 0) ∧
      launchedProbes [] rawQuery = [] := by
  unfold handleHasJoined launchedProbes
  rw [if_neg hq]
  exact ⟨rfl, rfl⟩

theorem mcdp_fanout_empty_servers_witness :
    handleHasJoined "username=TestPlayer" [] [AuthEvent.ctxDone]
        = some ({ status := 204, contentType := none, body := [] }, 0) ∧
      launchedProbes [] "username=TestPlayer" = [] :=
  mcdp_fanout_empty_servers "username=TestPlayer" [AuthEvent.ctxDone] (by decide)

/-- Claim C3: whenever the connection handler reaches the splice (detection did
not error), the byte stream written to the backend is exactly one PROXY
header - the detected header's raw bytes verbatim, or else a synthesized
v2 header from the client's remote address and the listener's local
address - followed by all remaining client bytes in order, with nothing
else injected. -/
theorem mcdp_backend_single_header (clientStream out : List Nat) (ra la : GoAddr)
    (hreach : backendBytes clientStream ra la = some out) :
    (∃ hd rest, detectProxyProtocol clientStream = Except.ok (some hd, rest) ∧
        clientStream = hd.rawBytes ++ rest ∧ out = hd.rawBytes ++ rest) ∨
    (detectProxyProtocol clientStream = Except.ok (none, clientStream) ∧
        out = buildProxyV2Header ra la ++ clientStream) := by
  unfold backendBytes at hreach
  cases hdet : detectProxyProtocol clientStream with
  | error e => rw [hdet] at hreach; exact absurd hreach (by simp)
  | ok p =>
    obtain ⟨o, rest⟩ := p
    rw [hdet] at hreach
    cases o with
    | some hd =>
      left
      have hs := detect_some_consumes hdet
      simp at hreach
      exact ⟨hd, rest, rfl, hs, hreach.symm⟩
    | none =>
      right
      have hr := detect_none_rest hdet
      subst hr
      simp at hreach
      exact ⟨rfl, hreach.symm⟩

theorem mcdp_backend_single_header_witness :
    (∃ hd rest, detectProxyProtocol (strB "PROXY UNKNOWN\r\nMC_DATA")
          = Except.ok (some hd, rest) ∧
        strB "PROXY UNKNOWN\r\nMC_DATA" = hd.rawBytes ++ rest ∧
        strB "PROXY UNKNOWN\r\nMC_DATA" = hd.rawBytes ++ rest) ∨
    (detectProxyProtocol (strB "PROXY UNKNOWN\r\nMC_DATA")
          = Except.ok (none, strB "PROXY UNKNOWN\r\nMC_DATA") ∧
        strB "PROXY UNKNOWN\r\nMC_DATA"
          = buildProxyV2Header GoAddr.other GoAddr.other
              ++ strB "PROXY UNKNOWN\r\nMC_DATA") :=
  mcdp_backend_single_header (strB "PROXY UNKNOWN\r\nMC_DATA")
    (strB "PROXY UNKNOWN\r\nMC_DATA") GoAddr.other GoAddr.other (by decide)

/-- Claim C5: on any stream that begins with neither the ASCII bytes of
PROXY-space nor the 12-byte v2 signature (short streams included),
detection reports no header, no error, and consumes nothing: the reader
still holds the stream byte-for-byte. -/
theorem mcdp_detect_non_header (S : List Nat)
    (h1 : ¬ proxyV1Prefix <+: S) (h2 : ¬ proxyV2Sig <+: S) :
    detectProxyProtocol S = Except.ok (none, S) := by
  have ht6 : S.take 6 ≠ proxyV1Prefix := fun he => h1 (he ▸ List.take_prefix 6 S)
  have ht12 : S.take 12 ≠ proxyV2Sig := fun he => h2 (he ▸ List.take_prefix 12 S)
  simp [detectProxyProtocol, ht12, ht6]

theorem mcdp_detect_non_header_witness :
    detectProxyProtocol [16, 0, 253, 5] = Except.ok (none, [16, 0, 253, 5]) :=
  mcdp_detect_non_header [16, 0, 253, 5] (by decide) (by decide)

/-- Claim C8 counterexample: a non-GET request to the exact path of the health
route is answered by the health handler with 200 ok, not with 404 as the
claim requires. -/
theorem mcdp_route_post_health :
    routeRequest "POST" "/health" = RouteOutcome.healthOk ∧
      routeRequest "POST" "/health" ≠ RouteOutcome.notFound := by
  constructor
  · rfl
  · decide

/-- Claim C8 (amended): the mux never consults the method.  For every request
whose path is neither exactly the hasJoined path nor exactly the health
path, the request is dispatched to the fan-out handler when the path
contains the substring hasJoined and is answered 404 otherwise; a request
with the exact health path gets the health handler whatever its method. -/
theorem mcdp_route_dispatch (method path : String)
    (h1 : path ≠ "/session/minecraft/hasJoined") (h2 : path ≠ "/health") :
    routeRequest method path =
        (if containsSub ("hasJoined".data) path.data then RouteOutcome.hasJoinedHandler
         else RouteOutcome.notFound) ∧
      routeRequest method "/health" = RouteOutcome.healthOk := by
  constructor
  · unfold routeRequest
    rw [if_neg h1, if_neg h2]
  · rfl

theorem mcdp_route_dispatch_witness :
    (routeRequest "PUT" "/v2/session/minecraft/hasJoinedExtra" =
        (if containsSub ("hasJoined".data) ("/v2/session/minecraft/hasJoinedExtra").data
         then RouteOutcome.hasJoinedHandler
         else RouteOutcome.notFound) ∧
      routeRequest "PUT" "/health" = RouteOutcome.healthOk) ∧
    routeRequest "PUT" "/v2/session/minecraft/hasJoinedExtra" = RouteOutcome.hasJoinedHandler := by
  refine ⟨mcdp_route_dispatch "PUT" "/v2/session/minecraft/hasJoinedExtra" (by decide) (by decide), ?_⟩
  rfl

theorem parseProxyV2_canonical (vc fam : Nat) (blk B : List Nat)
    (hvc : vc / 16 = 2) (hlen : blk.length < 65536) :
    parseProxyV2 ((proxyV2Sig ++ [vc, fam] ++ be16 blk.length) ++ (blk ++ B)) =
      Except.ok (some { version := 2,
                        srcAddr := (v2AddrFields (fam / 16) blk).1,
                        dstAddr := (v2AddrFields (fam / 16) blk).2.1,
                        srcPort := (v2AddrFields (fam / 16) blk).2.2.1,
                        dstPort := (v2AddrFields (fam / 16) blk).2.2.2,
                        rawBytes := (proxyV2Sig ++ [vc, fam] ++ be16 blk.length) ++ blk },
                 B) := by
  have hfix : (proxyV2Sig ++ [vc, fam] ++ be16 blk.length).length = 16 := by
    simp [proxyV2Sig, be16]
  have htake : ((proxyV2Sig ++ [vc, fam] ++ be16 blk.length) ++ (blk ++ B)).take 16
      = proxyV2Sig ++ [vc, fam] ++ be16 blk.length := List.take_left' hfix
  have hdrop : ((proxyV2Sig ++ [vc, fam] ++ be16 blk.length) ++ (blk ++ B)).drop 16
      = blk ++ B := List.drop_left' hfix
  have hg12 : (proxyV2Sig ++ [vc, fam] ++ be16 blk.length).getD 12 0 = vc := by
    rw [List.append_assoc, List.getD_append_right _ _ _ _ (by simp [proxyV2Sig])]
    simp [proxyV2Sig]
  have hg13 : (proxyV2Sig ++ [vc, fam] ++ be16 blk.length).getD 13 0 = fam := by
    rw [List.append_assoc, List.getD_append_right _ _ _ _ (by simp [proxyV2Sig])]
    simp [proxyV2Sig]
  have hd14 : (proxyV2Sig ++ [vc, fam] ++ be16 blk.length).drop 14 = be16 blk.length :=
    List.drop_left' (by simp [proxyV2Sig])
  have hdec : be16dec (be16 blk.length) = blk.length := by
    simp only [be16, be16dec]
    omega
  unfold parseProxyV2
  rw [if_pos (by rw [List.length_append, hfix]; omega)]
  dsimp only
  rw [htake, hg12, if_pos hvc, hdrop, hd14, hdec,
    if_pos (by simp), List.take_left, List.drop_left, hg13]

theorem parseProxyV1_wf_exists (parts : List (List Nat)) (B : List Nat)
    (htok : ∀ p ∈ parts, ∀ b ∈ p, b ≠ 10 ∧ b ≠ 13 ∧ b ≠ 32)
    (hshape : parts = [strB "PROXY", strB "UNKNOWN"] ∨
      ∃ t a1 a2 q1 q2, (t = strB "TCP4" ∨ t = strB "TCP6") ∧
        parts = [strB "PROXY", t, a1, a2, q1, q2]) :
    ∃ hd, parseProxyV1 (joinSpace parts ++ [13, 10] ++ B) = Except.ok (some hd, B) ∧
      hd.rawBytes = joinSpace parts ++ [13, 10] := by
  have hne : parts ≠ [] := by
    rcases hshape with h | ⟨t, a1, a2, q1, q2, _, h⟩ <;> subst h <;> simp
  rw [parseProxyV1_canonical parts B htok hne]
  rcases hshape with h | ⟨t, a1, a2, q1, q2, _, h⟩
  · subst h
    rw [if_pos (by decide)]
    exact ⟨_, rfl, rfl⟩
  · subst h
    rw [if_neg (by simp), if_neg (by simp)]
    exact ⟨_, rfl, rfl⟩

/-- Claim C4: a well-formed v1 or v2 header H (trailing TLV bytes of a declared
v2 length included) followed by arbitrary bytes B is detected: the parsed
header's raw bytes equal H exactly and the reader is left at the first
byte of B, so exactly the v1 line through its LF, or exactly the 16-byte
fixed header plus the declared length, is consumed. -/
theorem mcdp_detect_wellformed (H B : List Nat) (hwf : wfV1 H ∨ wfV2 H) :
    ∃ hd, detectProxyProtocol (H ++ B) = Except.ok (some hd, B) ∧ hd.rawBytes = H := by
  rcases hwf with ⟨parts, hH, htok, hshape⟩ | ⟨vc, fam, blk, hH, hvc, hlen⟩
  · -- v1 header
    have hpre : ∃ tail, H = strB "PROXY " ++ tail := by
      rcases hshape with h | ⟨t, a1, a2, q1, q2, _, h⟩
      · subst h; subst hH; exact ⟨strB "UNKNOWN" ++ [13, 10], by decide⟩
      · subst h; subst hH
        refine ⟨joinSpace [t, a1, a2, q1, q2] ++ [13, 10], ?_⟩
        rw [show joinSpace [strB "PROXY", t, a1, a2, q1, q2]
            = strB "PROXY" ++ 32 :: joinSpace [t, a1, a2, q1, q2] from rfl]
        rw [show strB "PROXY " = strB "PROXY" ++ [32] from by decide]
        simp
    obtain ⟨tail, htail⟩ := hpre
    have hlen6 : ((strB "PROXY " : List Nat)).length = 6 := by decide
    have ht6 : (H ++ B).take 6 = proxyV1Prefix := by
      rw [htail, List.append_assoc]
      rw [List.take_left' hlen6]
      rfl
    have ht12 : ¬ (H ++ B).take 12 = proxyV2Sig := by
      intro heq
      have hp : proxyV2Sig <+: H ++ B := heq ▸ List.take_prefix 12 (H ++ B)
      obtain ⟨t2, ht2⟩ := hp
      rw [htail] at ht2
      have := congrArg (fun l => l.getD 0 0) ht2
      simp [proxyV2Sig, strB] at this
    have h6len : 6 ≤ (H ++ B).length := by
      rw [htail]
      simp [hlen6]
    obtain ⟨hd, hp, hraw⟩ := parseProxyV1_wf_exists parts B htok hshape
    rw [← hH] at hp hraw
    refine ⟨hd, ?_, hraw⟩
    unfold detectProxyProtocol
    by_cases h16 : 16 ≤ (H ++ B).length
    · rw [if_pos h16, if_neg ht12, if_pos ht6]
      exact hp
    · rw [if_neg h16, if_pos h6len, if_pos ht6]
      exact hp
  · -- v2 header
    subst hH
    have hassoc : (proxyV2Sig ++ [vc, fam] ++ be16 blk.length ++ blk) ++ B
        = (proxyV2Sig ++ [vc, fam] ++ be16 blk.length) ++ (blk ++ B) := by
      simp [List.append_assoc]
    have hsig12 : ((proxyV2Sig : List Nat)).length = 12 := by decide
    have ht12 : ((proxyV2Sig ++ [vc, fam] ++ be16 blk.length ++ blk) ++ B).take 12
        = proxyV2Sig := by
      rw [hassoc, List.append_assoc, List.append_assoc, List.take_left' hsig12]
    have h16 : 16 ≤ ((proxyV2Sig ++ [vc, fam] ++ be16 blk.length ++ blk) ++ B).length := by
      simp [proxyV2Sig, be16]
    refine ⟨{ version := 2,
              srcAddr := (v2AddrFields (fam / 16) blk).1,
              dstAddr := (v2AddrFields (fam / 16) blk).2.1,
              srcPort := (v2AddrFields (fam / 16) blk).2.2.1,
              dstPort := (v2AddrFields (fam / 16) blk).2.2.2,
              rawBytes := (proxyV2Sig ++ [vc, fam] ++ be16 blk.length) ++ blk }, ?_, ?_⟩
    · unfold detectProxyProtocol
      rw [if_pos h16, if_pos ht12, hassoc, parseProxyV2_canonical vc fam blk B hvc hlen]
    · simp [List.append_assoc]

/-! ### IP and encoding helpers for the build/detect round trip -/

theorem ipTo4_length {ip l : List Nat} (h : ipTo4 ip = some l) : l.length = 4 := by
  unfold ipTo4 at h
  split at h
  · cases h; omega
  · split at h
    · cases h
      rename_i hc
      simp [hc.1]
    · cases h

theorem ipTo4_equal {ip l : List Nat} (h : ipTo4 ip = some l) : ipEqual l ip := by
  unfold ipTo4 at h
  split at h
  · cases h; exact Or.inl rfl
  · split at h
    · cases h
      rename_i hc
      refine Or.inr ⟨ip, ?_, ?_⟩
      · unfold ipTo16
        rw [if_pos (by simp [hc.1])]
        rw [← hc.2, List.take_append_drop]
      · unfold ipTo16
        rw [if_neg (by omega), if_pos hc.1]
    · cases h

theorem ipTo16_valid {ip : List Nat} (h : validIP ip) :
    ∃ l, ipTo16 ip = some l ∧ l.length = 16 ∧ ipEqual l ip := by
  rcases h with h4 | h16
  · refine ⟨v4MappedPrefix ++ ip, ?_, ?_, ?_⟩
    · unfold ipTo16; rw [if_pos h4]
    · simp [v4MappedPrefix, h4]
    · refine Or.inr ⟨v4MappedPrefix ++ ip, ?_, ?_⟩
      · unfold ipTo16
        rw [if_neg (by simp [v4MappedPrefix, h4]), if_pos (by simp [v4MappedPrefix, h4])]
      · unfold ipTo16; rw [if_pos h4]
  · refine ⟨ip, ?_, h16, Or.inl rfl⟩
    unfold ipTo16
    rw [if_neg (by omega), if_pos h16]

theorem copyN_self {l : List Nat} {n : Nat} (h : l.length = n) : copyN n l = l := by
  unfold copyN
  subst h
  rw [List.take_length, Nat.sub_self]
  simp

theorem be16dec_be16_append (n : Nat) (r : List Nat) (h : n < 65536) :
    be16dec (be16 n ++ r) = n := by
  simp only [be16, List.cons_append, List.nil_append, be16dec]
  omega

theorem be16dec_be16 (n : Nat) (h : n < 65536) : be16dec (be16 n) = n := by
  simp only [be16, be16dec]
  omega

theorem detect_build_v4 (sip dip s4 d4 : List Nat) (sport dport : Int)
    (hS4 : ipTo4 sip = some s4) (hD4 : ipTo4 dip = some d4)
    (hsp1 : 0 ≤ sport) (hsp2 : sport ≤ 65535)
    (hdp1 : 0 ≤ dport) (hdp2 : dport ≤ 65535) :
    ∃ h, detectProxyProtocol
        (proxyV2Sig ++ [33, 17] ++ be16 12 ++ copyN 4 s4 ++ copyN 4 d4 ++
          be16 (sport % 65536).toNat ++ be16 (dport % 65536).toNat)
      = Except.ok (some h, []) ∧ h.version = 2 ∧
      (∃ sa, h.srcAddr = some sa ∧ ipEqual sa sip) ∧
      (∃ da, h.dstAddr = some da ∧ ipEqual da dip) ∧
      h.srcPort = sport.toNat ∧ h.dstPort = dport.toNat := by
  have hs4len := ipTo4_length hS4
  have hd4len := ipTo4_length hD4
  have hspLt : (sport % 65536).toNat < 65536 := by omega
  have hdpLt : (dport % 65536).toNat < 65536 := by omega
  have hb : (s4 ++ (d4 ++ (be16 (sport % 65536).toNat ++
      be16 (dport % 65536).toNat))).length = 12 := by
    simp [hs4len, hd4len, be16]
  have hexpr : proxyV2Sig ++ [33, 17] ++ be16 12 ++ copyN 4 s4 ++ copyN 4 d4 ++
      be16 (sport % 65536).toNat ++ be16 (dport % 65536).toNat
      = (proxyV2Sig ++ [33, 17] ++ be16 (s4 ++ (d4 ++ (be16 (sport % 65536).toNat ++
          be16 (dport % 65536).toNat))).length)
        ++ ((s4 ++ (d4 ++ (be16 (sport % 65536).toNat ++
          be16 (dport % 65536).toNat))) ++ []) := by
    rw [copyN_self hs4len, copyN_self hd4len, hb]
    simp [List.append_assoc]
  have hdrop8 : (s4 ++ (d4 ++ (be16 (sport % 65536).toNat ++
      be16 (dport % 65536).toNat))).drop 8
      = be16 (sport % 65536).toNat ++ be16 (dport % 65536).toNat := by
    rw [show s4 ++ (d4 ++ (be16 (sport % 65536).toNat ++ be16 (dport % 65536).toNat))
        = (s4 ++ d4) ++ (be16 (sport % 65536).toNat ++ be16 (dport % 65536).toNat)
      from by simp [List.append_assoc]]
    exact List.drop_left' (by simp [hs4len, hd4len])
  have hdrop10 : (s4 ++ (d4 ++ (be16 (sport % 65536).toNat ++
      be16 (dport % 65536).toNat))).drop 10 = be16 (dport % 65536).toNat := by
    rw [show s4 ++ (d4 ++ (be16 (sport % 65536).toNat ++ be16 (dport % 65536).toNat))
        = ((s4 ++ d4) ++ be16 (sport % 65536).toNat) ++ be16 (dport % 65536).toNat
      from by simp [List.append_assoc]]
    exact List.drop_left' (by simp [hs4len, hd4len, be16])
  have hfields : v2AddrFields (17 / 16) (s4 ++ (d4 ++ (be16 (sport % 65536).toNat ++
      be16 (dport % 65536).toNat)))
      = (some s4, some d4, (sport % 65536).toNat, (dport % 65536).toNat) := by
    rw [show (17 : Nat) / 16 = 1 from by norm_num]
    unfold v2AddrFields
    rw [if_pos rfl, if_pos (by rw [hb])]
    rw [List.take_left' hs4len, List.drop_left' hs4len, List.take_left' hd4len,
      hdrop8, hdrop10, be16dec_be16_append _ _ hspLt, be16dec_be16 _ hdpLt]
  have h16 : 16 ≤ ((proxyV2Sig ++ [33, 17] ++ be16 (s4 ++ (d4 ++
      (be16 (sport % 65536).toNat ++ be16 (dport % 65536).toNat))).length)
        ++ ((s4 ++ (d4 ++ (be16 (sport % 65536).toNat ++
          be16 (dport % 65536).toNat))) ++ [])).length := by
    simp [proxyV2Sig, be16]
  have ht12 : ((proxyV2Sig ++ [33, 17] ++ be16 (s4 ++ (d4 ++
      (be16 (sport % 65536).toNat ++ be16 (dport % 65536).toNat))).length)
        ++ ((s4 ++ (d4 ++ (be16 (sport % 65536).toNat ++
          be16 (dport % 65536).toNat))) ++ [])).take 12 = proxyV2Sig := by
    rw [List.append_assoc, List.append_assoc,
      List.take_left' (show (proxyV2Sig : List Nat).length = 12 from by decide)]
  rw [hexpr]
  refine ⟨{ version := 2,
            srcAddr := (v2AddrFields (17 / 16) (s4 ++ (d4 ++ (be16 (sport % 65536).toNat ++
              be16 (dport % 65536).toNat)))).1,
            dstAddr := (v2AddrFields (17 / 16) (s4 ++ (d4 ++ (be16 (sport % 65536).toNat ++
              be16 (dport % 65536).toNat)))).2.1,
            srcPort := (v2AddrFields (17 / 16) (s4 ++ (d4 ++ (be16 (sport % 65536).toNat ++
              be16 (dport % 65536).toNat)))).2.2.1,
            dstPort := (v2AddrFields (17 / 16) (s4 ++ (d4 ++ (be16 (sport % 65536).toNat ++
              be16 (dport % 65536).toNat)))).2.2.2,
            rawBytes := (proxyV2Sig ++ [33, 17] ++ be16 (s4 ++ (d4 ++ (be16 (sport % 65536).toNat ++
              be16 (dport % 65536).toNat))).length) ++ (s4 ++ (d4 ++ (be16 (sport % 65536).toNat ++
              be16 (dport % 65536).toNat))) }, ?_, rfl, ?_, ?_, ?_, ?_⟩
  · unfold detectProxyProtocol
    rw [if_pos h16, if_pos ht12,
      parseProxyV2_canonical 33 17 _ [] (by norm_num) (by rw [hb]; norm_num)]
  · exact ⟨s4, by rw [hfields], ipTo4_equal hS4⟩
  · exact ⟨d4, by rw [hfields], ipTo4_equal hD4⟩
  · rw [hfields]
    show (sport % 65536).toNat = sport.toNat
    omega
  · rw [hfields]
    show (dport % 65536).toNat = dport.toNat
    omega

theorem detect_build_v6 (sip dip s16 d16 : List Nat) (sport dport : Int)
    (hS16 : ipTo16 sip = some s16) (hD16 : ipTo16 dip = some d16)
    (hs16len : s16.length = 16) (hd16len : d16.length = 16)
    (hsEq : ipEqual s16 sip) (hdEq : ipEqual d16 dip)
    (hsp1 : 0 ≤ sport) (hsp2 : sport ≤ 65535)
    (hdp1 : 0 ≤ dport) (hdp2 : dport ≤ 65535) :
    ∃ h, detectProxyProtocol
        (proxyV2Sig ++ [33, 33] ++ be16 36 ++ copyN 16 ((ipTo16 sip).getD []) ++
          copyN 16 ((ipTo16 dip).getD []) ++
          be16 (sport % 65536).toNat ++ be16 (dport % 65536).toNat)
      = Except.ok (some h, []) ∧ h.version = 2 ∧
      (∃ sa, h.srcAddr = some sa ∧ ipEqual sa sip) ∧
      (∃ da, h.dstAddr = some da ∧ ipEqual da dip) ∧
      h.srcPort = sport.toNat ∧ h.dstPort = dport.toNat := by
  have hspLt : (sport % 65536).toNat < 65536 := by omega
  have hdpLt : (dport % 65536).toNat < 65536 := by omega
  have hb : (s16 ++ (d16 ++ (be16 (sport % 65536).toNat ++
      be16 (dport % 65536).toNat))).length = 36 := by
    simp [hs16len, hd16len, be16]
  have hexpr : proxyV2Sig ++ [33, 33] ++ be16 36 ++ copyN 16 ((ipTo16 sip).getD []) ++
      copyN 16 ((ipTo16 dip).getD []) ++
      be16 (sport % 65536).toNat ++ be16 (dport % 65536).toNat
      = (proxyV2Sig ++ [33, 33] ++ be16 (s16 ++ (d16 ++ (be16 (sport % 65536).toNat ++
          be16 (dport % 65536).toNat))).length)
        ++ ((s16 ++ (d16 ++ (be16 (sport % 65536).toNat ++
          be16 (dport % 65536).toNat))) ++ []) := by
    rw [hS16, hD16]
    show proxyV2Sig ++ [33, 33] ++ be16 36 ++ copyN 16 s16 ++ copyN 16 d16 ++
      be16 (sport % 65536).toNat ++ be16 (dport % 65536).toNat = _
    rw [copyN_self hs16len, copyN_self hd16len, hb]
    simp [List.append_assoc]
  have hdrop32 : (s16 ++ (d16 ++ (be16 (sport % 65536).toNat ++
      be16 (dport % 65536).toNat))).drop 32
      = be16 (sport % 65536).toNat ++ be16 (dport % 65536).toNat := by
    rw [show s16 ++ (d16 ++ (be16 (sport % 65536).toNat ++ be16 (dport % 65536).toNat))
        = (s16 ++ d16) ++ (be16 (sport % 65536).toNat ++ be16 (dport % 65536).toNat)
      from by simp [List.append_assoc]]
    exact List.drop_left' (by simp [hs16len, hd16len])
  have hdrop34 : (s16 ++ (d16 ++ (be16 (sport % 65536).toNat ++
      be16 (dport % 65536).toNat))).drop 34 = be16 (dport % 65536).toNat := by
    rw [show s16 ++ (d16 ++ (be16 (sport % 65536).toNat ++ be16 (dport % 65536).toNat))
        = ((s16 ++ d16) ++ be16 (sport % 65536).toNat) ++ be16 (dport % 65536).toNat
      from by simp [List.append_assoc]]
    exact List.drop_left' (by simp [hs16len, hd16len, be16])
  have hfields : v2AddrFields (33 / 16) (s16 ++ (d16 ++ (be16 (sport % 65536).toNat ++
      be16 (dport % 65536).toNat)))
      = (some s16, some d16, (sport % 65536).toNat, (dport % 65536).toNat) := by
    rw [show (33 : Nat) / 16 = 2 from by norm_num]
    unfold v2AddrFields
    rw [if_neg (by norm_num), if_pos rfl, if_pos (by rw [hb])]
    rw [List.take_left' hs16len, List.drop_left' hs16len, List.take_left' hd16len,
      hdrop32, hdrop34, be16dec_be16_append _ _ hspLt, be16dec_be16 _ hdpLt]
  have h16 : 16 ≤ ((proxyV2Sig ++ [33, 33] ++ be16 (s16 ++ (d16 ++
      (be16 (sport % 65536).toNat ++ be16 (dport % 65536).toNat))).length)
        ++ ((s16 ++ (d16 ++ (be16 (sport % 65536).toNat ++
          be16 (dport % 65536).toNat))) ++ [])).length := by
    simp [proxyV2Sig, be16]
  have ht12 : ((proxyV2Sig ++ [33, 33] ++ be16 (s16 ++ (d16 ++
      (be16 (sport % 65536).toNat ++ be16 (dport % 65536).toNat))).length)
        ++ ((s16 ++ (d16 ++ (be16 (sport % 65536).toNat ++
          be16 (dport % 65536).toNat))) ++ [])).take 12 = proxyV2Sig := by
    rw [List.append_assoc, List.append_assoc,
      List.take_left' (show (proxyV2Sig : List Nat).length = 12 from by decide)]
  rw [hexpr]
  refine ⟨{ version := 2,
            srcAddr := (v2AddrFields (33 / 16) (s16 ++ (d16 ++ (be16 (sport % 65536).toNat ++
              be16 (dport % 65536).toNat)))).1,
            dstAddr := (v2AddrFields (33 / 16) (s16 ++ (d16 ++ (be16 (sport % 65536).toNat ++
              be16 (dport % 65536).toNat)))).2.1,
            srcPort := (v2AddrFields (33 / 16) (s16 ++ (d16 ++ (be16 (sport % 65536).toNat ++
              be16 (dport % 65536).toNat)))).2.2.1,
            dstPort := (v2AddrFields (33 / 16) (s16 ++ (d16 ++ (be16 (sport % 65536).toNat ++
              be16 (dport % 65536).toNat)))).2.2.2,
            rawBytes := (proxyV2Sig ++ [33, 33] ++ be16 (s16 ++ (d16 ++ (be16 (sport % 65536).toNat ++
              be16 (dport % 65536).toNat))).length) ++ (s16 ++ (d16 ++ (be16 (sport % 65536).toNat ++
              be16 (dport % 65536).toNat))) }, ?_, rfl, ?_, ?_, ?_, ?_⟩
  · unfold detectProxyProtocol
    rw [if_pos h16, if_pos ht12,
      parseProxyV2_canonical 33 33 _ [] (by norm_num) (by rw [hb]; norm_num)]
  · exact ⟨s16, by rw [hfields], hsEq⟩
  · exact ⟨d16, by rw [hfields], hdEq⟩
  · rw [hfields]
    show (sport % 65536).toNat = sport.toNat
    omega
  · rw [hfields]
    show (dport % 65536).toNat = dport.toNat
    omega

/-- Claim C6: for every valid TCP address pair (4- or 16-byte IPs, ports within
the 16-bit range), detecting the synthesized v2 header succeeds with no
stream left over and yields a version-2 header whose addresses equal the
pair's up to the canonical IPv4-in-IPv6 embedding and whose ports equal
the pair's ports. -/
theorem mcdp_detect_build (sip dip : List Nat) (sport dport : Int)
    (hs : validIP sip) (hd : validIP dip)
    (hsp1 : 0 ≤ sport) (hsp2 : sport ≤ 65535)
    (hdp1 : 0 ≤ dport) (hdp2 : dport ≤ 65535) :
    ∃ h, detectProxyProtocol
        (buildProxyV2Header (GoAddr.tcp sip sport) (GoAddr.tcp dip dport))
      = Except.ok (some h, []) ∧ h.version = 2 ∧
      (∃ sa, h.srcAddr = some sa ∧ ipEqual sa sip) ∧
      (∃ da, h.dstAddr = some da ∧ ipEqual da dip) ∧
      h.srcPort = sport.toNat ∧ h.dstPort = dport.toNat := by
  obtain ⟨s16, hS16, hs16len, hsEq⟩ := ipTo16_valid hs
  obtain ⟨d16, hD16, hd16len, hdEq⟩ := ipTo16_valid hd
  simp only [buildProxyV2Header]
  cases hS4 : ipTo4 sip with
  | some s4 =>
    cases hD4 : ipTo4 dip with
    | some d4 =>
      exact detect_build_v4 sip dip s4 d4 sport dport hS4 hD4 hsp1 hsp2 hdp1 hdp2
    | none =>
      exact detect_build_v6 sip dip s16 d16 sport dport hS16 hD16 hs16len hd16len
        hsEq hdEq hsp1 hsp2 hdp1 hdp2
  | none =>
    exact detect_build_v6 sip dip s16 d16 sport dport hS16 hD16 hs16len hd16len
      hsEq hdEq hsp1 hsp2 hdp1 hdp2

theorem mcdp_detect_wellformed_witness :
    ∃ hd, detectProxyProtocol (strB "PROXY UNKNOWN\r\n" ++ [77, 67])
        = Except.ok (some hd, [77, 67]) ∧ hd.rawBytes = strB "PROXY UNKNOWN\r\n" :=
  mcdp_detect_wellformed (strB "PROXY UNKNOWN\r\n") [77, 67]
    (Or.inl ⟨[strB "PROXY", strB "UNKNOWN"], by decide, by decide, Or.inl rfl⟩)

theorem mcdp_detect_build_witness :
    ∃ h, detectProxyProtocol
        (buildProxyV2Header (GoAddr.tcp [1, 2, 3, 4] 11111) (GoAddr.tcp [10, 0, 0, 1] 25565))
      = Except.ok (some h, []) ∧ h.version = 2 ∧
      (∃ sa, h.srcAddr = some sa ∧ ipEqual sa [1, 2, 3, 4]) ∧
      (∃ da, h.dstAddr = some da ∧ ipEqual da [10, 0, 0, 1]) ∧
      h.srcPort = (11111 : Int).toNat ∧ h.dstPort = (25565 : Int).toNat :=
  mcdp_detect_build [1, 2, 3, 4] [10, 0, 0, 1] 11111 25565
    (Or.inl rfl) (Or.inl rfl) (by norm_num) (by norm_num) (by norm_num) (by norm_num)

/-- Claim C7 counterexample: this CRLF-terminated 6-token line has second token
TCP9, outside the set of the claim, yet parseProxyV1 accepts it instead of
failing with a malformed-header error. -/
theorem mcdp_v1_tcp9_accepted :
    parseProxyV1 (strB "PROXY TCP9 1.2.3.4 5.6.7.8 80 81\r\n")
      = Except.ok (some { version := 1,
                          srcAddr := some [1, 2, 3, 4], dstAddr := some [5, 6, 7, 8],
                          srcPort := 80, dstPort := 81,
                          rawBytes := strB "PROXY TCP9 1.2.3.4 5.6.7.8 80 81\r\n" }, []) := by
  rfl

/-- Claim C7 (amended): over canonical CRLF-terminated lines, parseProxyV1 fails
exactly when the token list is neither a 2-token list whose second token
is UNKNOWN nor of length exactly 6; in particular neither the first token
nor the transport token is validated. -/
theorem mcdp_v1_malformed_iff (parts : List (List Nat)) (B : List Nat)
    (htok : ∀ p ∈ parts, ∀ b ∈ p, b ≠ 10 ∧ b ≠ 13 ∧ b ≠ 32)
    (hne : parts ≠ []) :
    (∃ e, parseProxyV1 (joinSpace parts ++ [13, 10] ++ B) = Except.error e) ↔
      (¬ (parts.length = 2 ∧ parts.getD 1 [] = strB "UNKNOWN") ∧ parts.length ≠ 6) := by
  rw [parseProxyV1_canonical parts B htok hne]
  by_cases h1 : parts.length = 2 ∧ parts.getD 1 [] = strB "UNKNOWN"
  · rw [if_pos h1]
    constructor
    · rintro ⟨e, he⟩
      exact absurd he (by simp)
    · rintro ⟨hn, _⟩
      exact absurd h1 hn
  · rw [if_neg h1]
    by_cases h2 : parts.length ≠ 6
    · rw [if_pos h2]
      constructor
      · intro _
        exact ⟨h1, h2⟩
      · intro _
        exact ⟨_, rfl⟩
    · rw [if_neg h2]
      constructor
      · rintro ⟨e, he⟩
        exact absurd he (by simp)
      · rintro ⟨_, hl⟩
        exact absurd hl h2

theorem mcdp_v1_malformed_iff_witness :
    (∃ e, parseProxyV1 (joinSpace [strB "PROXY", strB "TCP4", strB "1.2.3.4",
          strB "5.6.7.8", strB "80"] ++ [13, 10] ++ []) = Except.error e) ↔
      (¬ (([strB "PROXY", strB "TCP4", strB "1.2.3.4", strB "5.6.7.8",
            strB "80"] : List (List Nat)).length = 2 ∧
          ([strB "PROXY", strB "TCP4", strB "1.2.3.4", strB "5.6.7.8",
            strB "80"] : List (List Nat)).getD 1 [] = strB "UNKNOWN") ∧
        ([strB "PROXY", strB "TCP4", strB "1.2.3.4", strB "5.6.7.8",
          strB "80"] : List (List Nat)).length ≠ 6) :=
  mcdp_v1_malformed_iff [strB "PROXY", strB "TCP4", strB "1.2.3.4", strB "5.6.7.8", strB "80"]
    [] (by decide) (by decide)

